import Mathlib

/-!
Verification of the time-tracker bot's timer-parsing and grouped-confirmation
core against its source (src/utils.py, src/main.py, src/database.py).

Strings are modelled as `List Char`; Python's regex `\d` is modelled as an
ASCII digit and `\s` as ASCII whitespace (every input exercised here is in
that range).  Python floats are modelled as exact rationals; all float
computations appearing in the verified claims are exact at the inputs used.
-/

namespace TimeTracker

/-- Numeric value of an ASCII digit character. -/
def digitVal (c : Char) : Nat := c.toNat - '0'.toNat

/-- Numeric value of a run of decimal digit characters, as Python's `int` on a
matched digit group. -/
def digitsVal (l : List Char) : Nat := l.foldl (fun n c => n * 10 + digitVal c) 0

/-- Whitespace test modelling the regex class `\s` on the ASCII range. -/
def isSpaceChar (c : Char) : Bool :=
  c = ' ' || c = '\t' || c = '\n' || c = '\r' || c = '\x0b' || c = '\x0c'

/-- Match of the regex fragment `(\d{2}):(\d{2}):(\d{2})` at the head of the
text, returning the three captured two-digit numbers. -/
def tripletAt : List Char → Option (Nat × Nat × Nat)
  | a :: b :: c :: d :: e :: f :: g :: h :: _ =>
    if a.isDigit ∧ b.isDigit ∧ c = ':' ∧ d.isDigit ∧ e.isDigit ∧ f = ':' ∧ g.isDigit ∧ h.isDigit
    then some (10 * digitVal a + digitVal b, 10 * digitVal d + digitVal e,
               10 * digitVal g + digitVal h)
    else none
  | _ => none

/-- Literal marker of the primary pattern `Затрачено\s+(\d{2}):(\d{2}):(\d{2})`
in `parse_timer_message` (src/utils.py line 47). -/
def marker : List Char := "Затрачено".toList

/-- Match of the primary pattern at one starting position: the literal marker,
one or more whitespace characters (greedy, necessarily maximal since a digit
must follow), then the `HH:MM:SS` triplet. -/
def primaryAt (l : List Char) : Option (Nat × Nat × Nat) :=
  if marker.isPrefixOf l then
    match List.drop marker.length l with
    | [] => none
    | c :: rest =>
      if isSpaceChar c then tripletAt ((c :: rest).dropWhile isSpaceChar) else none
  else none

/-- Leftmost match of the primary pattern, as `re.search` (src/utils.py line 49). -/
def findPrimary : List Char → Option (Nat × Nat × Nat)
  | [] => none
  | c :: rest =>
    match primaryAt (c :: rest) with
    | some t => some t
    | none => findPrimary rest

/-- Minute conversion of `parse_timer_message`: `total_minutes = hours*60 + minutes`,
plus one more minute when `seconds >= 30` (src/utils.py lines 56-58 and 76-78). -/
def conv (h m s : Nat) : Nat := h * 60 + m + (if 30 ≤ s then 1 else 0)

/-- Fallback loop of `parse_timer_message` (src/utils.py lines 67-82):
`re.finditer` over `(\d{2}):(\d{2}):(\d{2})` yields non-overlapping matches, each
consuming 8 characters; a match whose components pass the range check and whose
converted total passes the `0 < total <= 1440` gate is returned, any other match
is skipped and the scan resumes after its 8 characters.  The 8-character skip is
expressed structurally: when the current match is rejected its first character is
consumed and the counter orders 7 further characters dropped before matching
resumes. -/
def scanAltAux : List Char → Nat → Option Nat
  | [], _ => none
  | _ :: rest, k + 1 => scanAltAux rest k
  | c :: rest, 0 =>
    match tripletAt (c :: rest) with
    | some (h, m, s) =>
      if h < 24 ∧ m < 60 ∧ s < 60 then
        if 0 < conv h m s ∧ conv h m s ≤ 1440 then some (conv h m s)
        else scanAltAux rest 7
      else scanAltAux rest 7
    | none => scanAltAux rest 0

/-- Fallback scan of the whole text (src/utils.py lines 67-84). -/
def scanAlt (l : List Char) : Option Nat := scanAltAux l 0

/-- Companion of `scanAltAux` returning the triplet the fallback loop accepted
rather than its converted total. -/
def scanAltTripletAux : List Char → Nat → Option (Nat × Nat × Nat)
  | [], _ => none
  | _ :: rest, k + 1 => scanAltTripletAux rest k
  | c :: rest, 0 =>
    match tripletAt (c :: rest) with
    | some (h, m, s) =>
      if h < 24 ∧ m < 60 ∧ s < 60 then
        if 0 < conv h m s ∧ conv h m s ≤ 1440 then some (h, m, s)
        else scanAltTripletAux rest 7
      else scanAltTripletAux rest 7
    | none => scanAltTripletAux rest 0

/-- Triplet accepted by the fallback scan of the whole text. -/
def scanAltTriplet (l : List Char) : Option (Nat × Nat × Nat) := scanAltTripletAux l 0

/-- Shallow embedding of `parse_timer_message` (src/utils.py lines 44-84): the
primary marker pattern is tried first and, when it matches, its converted total
is subject to the `0 < total <= 1440` gate (with no fall-through to the
alternative pattern); otherwise the whole text is scanned by the fallback loop. -/
def parse_timer_message (text : List Char) : Option Nat :=
  match findPrimary text with
  | some (h, m, s) =>
    if 0 < conv h m s ∧ conv h m s ≤ 1440 then some (conv h m s) else none
  | none => scanAlt text

/-- Triplet whose conversion `parse_timer_message` returns, when it returns one:
the gated primary match if the marker pattern matched, else the triplet accepted
by the fallback loop. -/
def extractedTriplet (text : List Char) : Option (Nat × Nat × Nat) :=
  match findPrimary text with
  | some (h, m, s) =>
    if 0 < conv h m s ∧ conv h m s ≤ 1440 then some (h, m, s) else none
  | none => scanAltTriplet text

/-- Search for the regex `(\d+)` followed by the literal `suf`, as
`re.search(r'(\d+)ч', ...)` and its variants in `parse_time_input`
(src/utils.py lines 14-28), returning the digit group of the leftmost match.
Since the character after the greedy `\d+` must be the non-digit start of `suf`,
a match at a position is exactly: a maximal digit run from that position whose
immediate successor text starts with `suf`. -/
def searchNumSuffix (suf : List Char) : List Char → Option Nat
  | [] => none
  | c :: rest =>
    if c.isDigit ∧ suf.isPrefixOf ((c :: rest).dropWhile Char.isDigit) then
      some (digitsVal ((c :: rest).takeWhile Char.isDigit))
    else searchNumSuffix suf rest

/-- Match of the anchored regex `^(\d+(\.\d+)?)$` (src/utils.py line 32): the
whole string is a nonempty digit run, optionally followed by a dot and another
nonempty digit run.  Returns the integer digits and the fraction digits. -/
def decimalMatch (t : List Char) : Option (List Char × List Char) :=
  let ds := t.takeWhile Char.isDigit
  match t.dropWhile Char.isDigit with
  | [] => if ds = [] then none else some (ds, [])
  | '.' :: fs =>
    if ds ≠ [] ∧ fs ≠ [] ∧ fs.all Char.isDigit then some (ds, fs) else none
  | _ => none

/-- Value of Python `int(float(t) * 60)` for a string matched by `decimalMatch`,
in exact arithmetic: the float is modelled as the exact rational
`intPart + fracPart / 10^k`, and `int` truncates the non-negative product. -/
def decimalMinutes (ds fs : List Char) : Nat :=
  (digitsVal ds * 10 ^ fs.length + digitsVal fs) * 60 / 10 ^ fs.length

/-- Shallow embedding of `parse_time_input` (src/utils.py lines 10-41).  The
branches in source order: the hours/minutes unit-token branch (`(\d+)ч`,
`(\d+)м`), the `(\d+)мин` branch, the anchored plain-number branch interpreted
as hours, and the all-digits branch interpreted as minutes. -/
def parse_time_input (t : List Char) : Option Nat :=
  if (searchNumSuffix ['ч'] t).isSome ∨ (searchNumSuffix ['м'] t).isSome then
    some ((searchNumSuffix ['ч'] t).elim 0 (· * 60) + (searchNumSuffix ['м'] t).elim 0 id)
  else
    match searchNumSuffix ['м', 'и', 'н'] t with
    | some n => some n
    | none =>
      match decimalMatch t with
      | some (ds, fs) => some (decimalMinutes ds fs)
      | none => if t ≠ [] ∧ t.all Char.isDigit then some (digitsVal t) else none

/-!
Model of the grouped-timer confirmation workflow of src/main.py, for a single
user in a single chat.  Observables are the confirmation prompts sent (with the
payload carried by their inline buttons) and the `add_time_record` calls issued
to storage.  The transient "таймер добавлен в группу" notice (which carries no
buttons) and message deletions are chat-transport effects outside the model.
-/

/-- Confirmation prompt sent to the user.  `single m` is the prompt of
`process_single_timer` (src/main.py lines 1719-1798), whose confirm button
carries `timer_confirm_{m}`; `batch items total` is the itemized summary of
`process_grouped_timers` (src/main.py lines 1648-1675), whose confirm button
carries `timer_group_confirm_{total}`. -/
inductive Prompt where
  | single (minutes : Nat)
  | batch (items : List Nat) (total : Nat)
deriving DecidableEq

/-- Per-user state of the workflow.  `grouping` is
`context.user_data['grouping_timers']`; `buffer` is
`context.user_data['timer_buffer']`, shared by reference with every scheduled
job; `pendingJobs` counts `process_grouped_timers` callbacks scheduled through
`job_queue.run_once(..., 2, ...)` and not yet fired; `prompts` and `commits`
record the confirmation messages sent and the `add_time_record(user_id, ...)`
calls made, in order. -/
structure BotState where
  grouping : Bool
  buffer : List Nat
  pendingJobs : Nat
  prompts : List Prompt
  commits : List Nat
deriving DecidableEq

/-- Events driving the workflow: a qualifying timer message whose parsed
duration is `minutes` (src/main.py lines 1498-1576), the firing of one
scheduled `process_grouped_timers` job, and the three button callbacks handled
in `button_callback` (src/main.py lines 953-1056). -/
inductive Event where
  | timerMsg (minutes : Nat)
  | debounceFire
  | confirmSingle (minutes : Nat)
  | confirmGroup (total : Nat)
  | cancel
deriving DecidableEq

/-- Transition function, read off the source:

* `timerMsg m` in grouping mode appends `m` to `timer_buffer` and schedules one
  more `process_grouped_timers` callback — without cancelling any previously
  scheduled one (src/main.py lines 1520-1557); outside grouping mode it runs
  `process_single_timer` directly, which sends the single confirm prompt
  (src/main.py lines 1559-1564 and 1719-1798).
* `debounceFire` runs `process_grouped_timers` with the shared buffer: an empty
  buffer returns silently; a one-element buffer is replayed through
  `process_single_timer` with a pseudo-update whose `message` stubs
  `reply_text` by a lambda returning None, so
  `hasattr(update.message, 'reply_text')` holds, the prompt text is passed to
  the stub and discarded, and the `context.bot.send_message` else-branch that
  would really send it is unreachable — no prompt is sent on this path
  (src/main.py lines 1626-1634 and 1753-1778); two or more elements produce
  the itemized batch prompt over the buffer in insertion order with
  `total = sum` (src/main.py lines 1601-1675).  The buffer is not cleared on
  any path.
* `confirmSingle m` and `confirmGroup t` call `add_time_record` with the value
  parsed out of the callback data, unconditionally (src/main.py lines 953-959
  and 993-999); nothing records that a prompt was already resolved.
* `cancel` deletes the prompt message only: no storage call, and neither the
  buffer nor anything else in the model state changes (src/main.py
  lines 1033-1056). -/
def step (s : BotState) (e : Event) : BotState :=
  match e with
  | .timerMsg m =>
    if s.grouping then
      { s with buffer := s.buffer ++ [m], pendingJobs := s.pendingJobs + 1 }
    else
      { s with prompts := s.prompts ++ [Prompt.single m] }
  | .debounceFire =>
    if s.pendingJobs = 0 then s
    else
      match s.buffer with
      | [] => { s with pendingJobs := s.pendingJobs - 1 }
      | [_] => { s with pendingJobs := s.pendingJobs - 1 }
      | ms => { s with pendingJobs := s.pendingJobs - 1,
                       prompts := s.prompts ++ [Prompt.batch ms ms.sum] }
  | .confirmSingle m => { s with commits := s.commits ++ [m] }
  | .confirmGroup t => { s with commits := s.commits ++ [t] }
  | .cancel => s

/-- Processing of a sequence of events in order. -/
def run (s : BotState) : List Event → BotState
  | [] => s
  | e :: es => run (step s e) es

/-- State of a user who has just enabled grouping mode: empty buffer, no
scheduled jobs, nothing sent or committed. -/
def groupingInit : BotState := ⟨true, [], 0, [], []⟩

/-- State of a user outside grouping mode. -/
def directInit : BotState := ⟨false, [], 0, [], []⟩

/-- Firing of every scheduled `process_grouped_timers` job: nothing in the code
cancels a scheduled job, so each of the `pendingJobs` callbacks fires once. -/
def fireAll (s : BotState) : BotState := run s (List.replicate s.pendingJobs Event.debounceFire)

/-- Commit list contributed by one delivered event. -/
def confirmCommits : Event → List Nat
  | .confirmSingle m => [m]
  | .confirmGroup t => [t]
  | _ => []

/-!
Model of `Database.get_progress` (src/database.py lines 219-233) for a stored
user row.  The REAL columns are modelled as exact rationals; Python's `int()`
truncates toward zero.
-/

/-- Stored row of the `users` table read by `get_progress`. -/
structure UserData where
  rate : ℚ
  goal : ℚ
  earned : ℚ
deriving DecidableEq

/-- Python `int()` on a rational: truncation toward zero. -/
def truncInt (q : ℚ) : ℤ := if 0 ≤ q then ⌊q⌋ else ⌈q⌉

/-- Progress report returned by `get_progress` when the user row exists. -/
structure Progress where
  goal : ℚ
  earned : ℚ
  percent : ℤ
  hours_left : ℚ
deriving DecidableEq

/-- Shallow embedding of `Database.get_progress` on an existing user row
(src/database.py lines 219-233):
`percent = min(100, int(earned / goal * 100)) if goal > 0 else 0` and
`hours_left = max(0, (goal - earned) / rate) if rate > 0 else 0`;
the guards ensure no division by zero is attempted. -/
def get_progress (d : UserData) : Progress :=
  { goal := d.goal
    earned := d.earned
    percent := if 0 < d.goal then min 100 (truncInt (d.earned / d.goal * 100)) else 0
    hours_left := if 0 < d.rate then max 0 ((d.goal - d.earned) / d.rate) else 0 }

/-- Reading of the fallback sentence of the spec, written to compare the claim
with the code: take the first position, overlapping matches included, whose
shaped `HH:MM:SS` triplet satisfies `0≤HH<24`, `0≤MM<60`, `0≤SS<60`, and use it. -/
def specFirstValidTriplet : List Char → Option (Nat × Nat × Nat)
  | [] => none
  | c :: rest =>
    match tripletAt (c :: rest) with
    | some (h, m, s) =>
      if h < 24 ∧ m < 60 ∧ s < 60 then some (h, m, s) else specFirstValidTriplet rest
    | none => specFirstValidTriplet rest

/-- Timer message whose elapsed seconds round up. -/
def msgRoundUp : List Char := "🛑 Таймер остановлен. Затрачено 01:29:30".toList

/-- Timer message whose elapsed seconds round down. -/
def msgRoundDown : List Char := "🛑 Таймер остановлен. Затрачено 01:29:29".toList

/-- Timer message with elapsed time 24:00:01. -/
def msgBoundary : List Char := "🛑 Таймер остановлен. Затрачено 24:00:01".toList

/-- Timer message whose computed total is 0 minutes. -/
def msgZero : List Char := "🛑 Таймер остановлен. Затрачено 00:00:29".toList

/-- Timer message whose computed total exceeds 1440 minutes. -/
def msgOver : List Char := "🛑 Таймер остановлен. Затрачено 25:10:00".toList

/-- Markerless message in which a range-valid `11:22:33` overlaps the earlier
shaped match `30:11:22` consumed by the non-overlapping scan. -/
def msgOverlap : List Char := "стоп 30:11:22:33".toList

/-- Markerless message handled by the fallback scan. -/
def msgFallback : List Char := "стоп 01:29:30".toList

example : parse_timer_message "Затрачено 24:00:01".toList = some 1440 := by decide

example : parse_time_input "2ч 20м".toList = some 140 := by decide

example : parse_time_input "140мин".toList = some 140 := by decide

example : parse_time_input "2.33".toList = some 139 := by decide

example : parse_time_input "abc".toList = none := by decide

example : (get_progress ⟨100, 1000, 500⟩).percent = 50 := by
  simp [get_progress, truncInt]
  norm_num

/-- Unfolding of the fallback loop after a failed shape match. -/
theorem scanAltAux_none (c : Char) (rest : List Char)
    (ht : tripletAt (c :: rest) = none) : scanAltAux (c :: rest) 0 = scanAltAux rest 0 := by
  rw [scanAltAux, ht]

/-- Unfolding of the fallback loop after a successful shape match. -/
theorem scanAltAux_some (c : Char) (rest : List Char) (h m s : Nat)
    (ht : tripletAt (c :: rest) = some (h, m, s)) :
    scanAltAux (c :: rest) 0 =
      if h < 24 ∧ m < 60 ∧ s < 60 then
        if 0 < conv h m s ∧ conv h m s ≤ 1440 then some (conv h m s)
        else scanAltAux rest 7
      else scanAltAux rest 7 := by
  rw [scanAltAux, ht]

/-- Unfolding of the triplet companion after a failed shape match. -/
theorem scanAltTripletAux_none (c : Char) (rest : List Char)
    (ht : tripletAt (c :: rest) = none) :
    scanAltTripletAux (c :: rest) 0 = scanAltTripletAux rest 0 := by
  rw [scanAltTripletAux, ht]

/-- Unfolding of the triplet companion after a successful shape match. -/
theorem scanAltTripletAux_some (c : Char) (rest : List Char) (h m s : Nat)
    (ht : tripletAt (c :: rest) = some (h, m, s)) :
    scanAltTripletAux (c :: rest) 0 =
      if h < 24 ∧ m < 60 ∧ s < 60 then
        if 0 < conv h m s ∧ conv h m s ≤ 1440 then some (h, m, s)
        else scanAltTripletAux rest 7
      else scanAltTripletAux rest 7 := by
  rw [scanAltTripletAux, ht]

/-- Every total produced by the fallback loop passed its range gate. -/
theorem scanAltAux_gate : ∀ (l : List Char) (k d : Nat),
    scanAltAux l k = some d → 0 < d ∧ d ≤ 1440 := by
  intro l
  induction l with
  | nil => intro k d hd; simp [scanAltAux] at hd
  | cons c rest ih =>
    intro k d hd
    cases k with
    | succ k => exact ih k d hd
    | zero =>
      cases htrip : tripletAt (c :: rest) with
      | none =>
        rw [scanAltAux_none c rest htrip] at hd
        exact ih 0 d hd
      | some t =>
        obtain ⟨h, m, s⟩ := t
        rw [scanAltAux_some c rest h m s htrip] at hd
        by_cases hb : h < 24 ∧ m < 60 ∧ s < 60
        · rw [if_pos hb] at hd
          by_cases hg : 0 < conv h m s ∧ conv h m s ≤ 1440
          · rw [if_pos hg] at hd
            simp only [Option.some.injEq] at hd
            subst hd
            exact hg
          · rw [if_neg hg] at hd
            exact ih 7 d hd
        · rw [if_neg hb] at hd
          exact ih 7 d hd

/-- The fallback loop returns exactly the conversion of the triplet it accepted. -/
theorem scanAltTripletAux_spec : ∀ (l : List Char) (k h m s : Nat),
    scanAltTripletAux l k = some (h, m, s) → scanAltAux l k = some (conv h m s) := by
  intro l
  induction l with
  | nil => intro k h m s hd; simp [scanAltTripletAux] at hd
  | cons c rest ih =>
    intro k h m s hd
    cases k with
    | succ k => exact ih k h m s hd
    | zero =>
      cases htrip : tripletAt (c :: rest) with
      | none =>
        rw [scanAltTripletAux_none c rest htrip] at hd
        rw [scanAltAux_none c rest htrip]
        exact ih 0 h m s hd
      | some t =>
        obtain ⟨h', m', s'⟩ := t
        rw [scanAltTripletAux_some c rest h' m' s' htrip] at hd
        rw [scanAltAux_some c rest h' m' s' htrip]
        by_cases hb : h' < 24 ∧ m' < 60 ∧ s' < 60
        · rw [if_pos hb] at hd ⊢
          by_cases hg : 0 < conv h' m' s' ∧ conv h' m' s' ≤ 1440
          · rw [if_pos hg] at hd
            rw [if_pos hg]
            simp only [Option.some.injEq, Prod.mk.injEq] at hd
            obtain ⟨rfl, rfl, rfl⟩ := hd
            rfl
          · rw [if_neg hg] at hd
            rw [if_neg hg]
            exact ih 7 h m s hd
        · rw [if_neg hb] at hd
          rw [if_neg hb]
          exact ih 7 h m s hd

/-- The triplet accepted by the fallback loop is range-valid, passes the total
gate, and occurs as a shaped substring of the scanned text. -/
theorem scanAltTripletAux_occurs : ∀ (l : List Char) (k h m s : Nat),
    scanAltTripletAux l k = some (h, m, s) →
    (h < 24 ∧ m < 60 ∧ s < 60) ∧ (0 < conv h m s ∧ conv h m s ≤ 1440) ∧
      ∃ i, tripletAt (List.drop i l) = some (h, m, s) := by
  intro l
  induction l with
  | nil => intro k h m s hd; simp [scanAltTripletAux] at hd
  | cons c rest ih =>
    intro k h m s hd
    cases k with
    | succ k =>
      obtain ⟨hb, hg, i, hi⟩ := ih k h m s hd
      exact ⟨hb, hg, i + 1, by rw [List.drop_succ_cons]; exact hi⟩
    | zero =>
      cases htrip : tripletAt (c :: rest) with
      | none =>
        rw [scanAltTripletAux_none c rest htrip] at hd
        obtain ⟨hb, hg, i, hi⟩ := ih 0 h m s hd
        exact ⟨hb, hg, i + 1, by rw [List.drop_succ_cons]; exact hi⟩
      | some t =>
        obtain ⟨h', m', s'⟩ := t
        rw [scanAltTripletAux_some c rest h' m' s' htrip] at hd
        by_cases hb : h' < 24 ∧ m' < 60 ∧ s' < 60
        · rw [if_pos hb] at hd
          by_cases hg : 0 < conv h' m' s' ∧ conv h' m' s' ≤ 1440
          · rw [if_pos hg] at hd
            simp only [Option.some.injEq, Prod.mk.injEq] at hd
            obtain ⟨rfl, rfl, rfl⟩ := hd
            exact ⟨hb, hg, 0, htrip⟩
          · rw [if_neg hg] at hd
            obtain ⟨hb2, hg2, i, hi⟩ := ih 7 h m s hd
            exact ⟨hb2, hg2, i + 1, by rw [List.drop_succ_cons]; exact hi⟩
        · rw [if_neg hb] at hd
          obtain ⟨hb2, hg2, i, hi⟩ := ih 7 h m s hd
          exact ⟨hb2, hg2, i + 1, by rw [List.drop_succ_cons]; exact hi⟩

/-- C3: the claim `parse_free_text("45") == 45` fails on the code: the anchored
plain-number branch `^(\d+(\.\d+)?)$` matches the bare integer first and
interprets it as hours, returning `int(45.0 * 60) = 2700`; the later all-digits
branch, whose comment says a bare integer is assumed to be minutes, is
unreachable. -/
theorem parse_time_input_bare_integer_as_hours :
    parse_time_input "45".toList = some 2700 ∧ parse_time_input "45".toList ≠ some 45 :=
  ⟨by decide, by decide⟩

/-- C4 counterexample: a timer message with elapsed `24:00:01` parses to 1440
minutes rather than to none, because its computed total is exactly 1440 and the
gate `0 < total ≤ 1440` admits it. -/
theorem parse_timer_message_24h_boundary_accepted :
    parse_timer_message msgBoundary = some 1440 ∧ parse_timer_message msgBoundary ≠ none :=
  ⟨by decide, by decide⟩

/-- C4 amended: `parse_timer_message` returns a duration only when the computed
total satisfies `0 < total ≤ 1440`; a computed total of 0 minutes returns none
and a computed total above 1440 minutes returns none.  (Elapsed `24:00:01`
computes to exactly 1440 and is accepted through the primary-marker path; the
per-component `HH < 24` bound belongs only to the fallback scan.) -/
theorem parse_timer_message_gate :
    (∀ (text : List Char) (d : Nat), parse_timer_message text = some d →
      0 < d ∧ d ≤ 1440) ∧
    parse_timer_message msgZero = none ∧ parse_timer_message msgOver = none := by
  refine ⟨?_, by decide, by decide⟩
  intro text d hd
  rw [parse_timer_message] at hd
  cases hfp : findPrimary text with
  | some t =>
    obtain ⟨h, m, s⟩ := t
    simp only [hfp] at hd
    by_cases hg : 0 < conv h m s ∧ conv h m s ≤ 1440
    · rw [if_pos hg] at hd
      simp only [Option.some.injEq] at hd
      subst hd
      exact hg
    · rw [if_neg hg] at hd
      exact absurd hd (by simp)
  | none =>
    simp only [hfp] at hd
    exact scanAltAux_gate text 0 d hd

/-- C4 witness: the gate theorem applied to a concretely parsed message. -/
theorem parse_timer_message_gate_witness :
    parse_timer_message msgRoundUp = some 90 ∧ 0 < 90 ∧ 90 ≤ 1440 :=
  ⟨by decide, parse_timer_message_gate.1 msgRoundUp 90 (by decide)⟩

/-- C5: every elapsed triplet `HH:MM:SS` the parser extracts is converted to
`HH*60 + MM`, plus one minute exactly when `SS ≥ 30`; in particular elapsed
`01:29:30` yields 90 minutes and `01:29:29` yields 89. -/
theorem parse_timer_message_rounding :
    (∀ (text : List Char) (h m s : Nat), extractedTriplet text = some (h, m, s) →
      parse_timer_message text = some (h * 60 + m + (if 30 ≤ s then 1 else 0))) ∧
    parse_timer_message msgRoundUp = some 90 ∧
    parse_timer_message msgRoundDown = some 89 := by
  refine ⟨?_, by decide, by decide⟩
  intro text h m s hext
  rw [extractedTriplet] at hext
  rw [parse_timer_message]
  cases hfp : findPrimary text with
  | some t =>
    obtain ⟨h', m', s'⟩ := t
    simp only [hfp] at hext ⊢
    by_cases hg : 0 < conv h' m' s' ∧ conv h' m' s' ≤ 1440
    · rw [if_pos hg] at hext
      simp only [Option.some.injEq, Prod.mk.injEq] at hext
      obtain ⟨rfl, rfl, rfl⟩ := hext
      rw [if_pos hg]
      rfl
    · rw [if_neg hg] at hext
      exact absurd hext (by simp)
  | none =>
    simp only [hfp] at hext ⊢
    exact scanAltTripletAux_spec text 0 h m s hext

/-- C5 witness: the rounding theorem applied to the triplet extracted from a
concrete message. -/
theorem parse_timer_message_rounding_witness :
    extractedTriplet msgRoundUp = some (1, 29, 30) ∧
    parse_timer_message msgRoundUp = some (1 * 60 + 29 + (if 30 ≤ 30 then 1 else 0)) :=
  ⟨by decide, parse_timer_message_rounding.1 msgRoundUp 1 29 30 (by decide)⟩

/-- C8 counterexample: in `стоп 30:11:22:33` the first `HH:MM:SS`-shaped
substring with range-valid components is `11:22:33`, but the non-overlapping
fallback scan consumed the shaped (range-invalid) match `30:11:22` covering it
and returns nothing, so the parser does not use the first valid substring. -/
theorem fallback_misses_overlapping_valid_triplet :
    findPrimary msgOverlap = none ∧
    specFirstValidTriplet msgOverlap = some (11, 22, 33) ∧
    parse_timer_message msgOverlap = none ∧
    parse_timer_message msgOverlap ≠ some (conv 11 22 33) :=
  ⟨by decide, by decide, by decide, by decide⟩

/-- C8 amended: when the primary marker is absent, the parser scans the whole
text left to right with non-overlapping `HH:MM:SS` matches, each consuming 8
characters, and returns the conversion of the first match whose components
satisfy `0≤HH<24`, `0≤MM<60`, `0≤SS<60` and whose total passes the
`0 < total ≤ 1440` gate; the accepted triplet really occurs as a shaped
substring of the text. -/
theorem fallback_scan_sound :
    ∀ (text : List Char) (h m s : Nat), findPrimary text = none →
      scanAltTriplet text = some (h, m, s) →
      (h < 24 ∧ m < 60 ∧ s < 60) ∧ (0 < conv h m s ∧ conv h m s ≤ 1440) ∧
        parse_timer_message text = some (conv h m s) ∧
        ∃ i, tripletAt (List.drop i text) = some (h, m, s) := by
  intro text h m s hfp hscan
  obtain ⟨hb, hg, i, hi⟩ := scanAltTripletAux_occurs text 0 h m s hscan
  refine ⟨hb, hg, ?_, i, hi⟩
  rw [parse_timer_message]
  simp only [hfp]
  exact scanAltTripletAux_spec text 0 h m s hscan

/-- C8 witness: the fallback soundness theorem applied to a concrete markerless
message. -/
theorem fallback_scan_sound_witness :
    (1 < 24 ∧ 29 < 60 ∧ 30 < 60) ∧ (0 < conv 1 29 30 ∧ conv 1 29 30 ≤ 1440) ∧
      parse_timer_message msgFallback = some (conv 1 29 30) ∧
      ∃ i, tripletAt (List.drop i msgFallback) = some (1, 29, 30) :=
  fallback_scan_sound msgFallback 1 29 30 (by decide) (by decide)

/-- Effect of a burst of timer messages on a user in grouping mode: each one
appends to the buffer and schedules one more debounce callback. -/
theorem run_timerMsgs : ∀ (ms : List Nat) (s : BotState), s.grouping = true →
    run s (ms.map Event.timerMsg) =
      { s with buffer := s.buffer ++ ms, pendingJobs := s.pendingJobs + ms.length } := by
  intro ms
  induction ms with
  | nil => intro s hg; simp [run]
  | cons m ms ih =>
    intro s hg
    obtain ⟨g, buf, p, pr, cm⟩ := s
    simp only at hg
    subst hg
    rw [List.map_cons, run, step]
    simp only [if_true]
    rw [ih ⟨true, buf ++ [m], p + 1, pr, cm⟩ rfl]
    simp only [BotState.mk.injEq, List.append_assoc, List.singleton_append,
      List.length_cons, true_and, and_true]
    omega

/-- Effect of firing `k` of the pending debounce callbacks while the shared
buffer holds at least two items: each firing emits one batch prompt over the
whole buffer. -/
theorem run_fires : ∀ (k : Nat) (s : BotState) (a b : Nat) (l : List Nat),
    s.buffer = a :: b :: l → k ≤ s.pendingJobs →
    run s (List.replicate k Event.debounceFire) =
      { s with pendingJobs := s.pendingJobs - k,
               prompts := s.prompts ++
                 List.replicate k (Prompt.batch s.buffer s.buffer.sum) } := by
  intro k
  induction k with
  | zero => intro s a b l hbuf hk; simp [run]
  | succ k ih =>
    intro s a b l hbuf hk
    obtain ⟨g, buf, p, pr, cm⟩ := s
    simp only at hbuf hk
    subst hbuf
    rw [List.replicate_succ, run, step]
    rw [if_neg (by simp only; omega : ¬ (BotState.mk g (a :: b :: l) p pr cm).pendingJobs = 0)]
    simp only
    rw [ih ⟨g, a :: b :: l, p - 1,
          pr ++ [Prompt.batch (a :: b :: l) (a :: b :: l).sum], cm⟩ a b l rfl
        (by simp only; omega)]
    simp only [BotState.mk.injEq, List.append_assoc, List.singleton_append,
      List.replicate_succ, true_and, and_true]
    omega

/-- C1 counterexample: a single timer prompt confirmed twice (a duplicate
delivered callback) produces two `add_time_record` calls, not one. -/
theorem duplicate_confirm_commits_twice :
    (run directInit [Event.timerMsg 30, Event.confirmSingle 30, Event.confirmSingle 30]).prompts
        = [Prompt.single 30] ∧
    (run directInit [Event.timerMsg 30, Event.confirmSingle 30, Event.confirmSingle 30]).commits
        = [30, 30] ∧
    (run directInit [Event.timerMsg 30, Event.confirmSingle 30, Event.confirmSingle 30]).commits.length
        ≠ 1 :=
  ⟨by decide, by decide, by decide⟩

/-- C1 amended: each delivered confirm action performs exactly one
`add_time_record` call with the minutes carried in its callback data — commits
are once per delivery, not at most once per prompt, since no state records that
a prompt was already resolved. -/
theorem commits_once_per_delivered_confirm :
    ∀ (s : BotState) (es : List Event),
      (run s es).commits = s.commits ++ (es.map confirmCommits).flatten := by
  intro s es
  induction es generalizing s with
  | nil => simp [run]
  | cons e es ih =>
    have hstep : (step s e).commits = s.commits ++ confirmCommits e := by
      cases e with
      | timerMsg m =>
        rw [step]
        by_cases hg : s.grouping = true
        · simp [hg, confirmCommits]
        · simp only [Bool.not_eq_true] at hg
          simp [hg, confirmCommits]
      | debounceFire =>
        rw [step]
        by_cases hp : s.pendingJobs = 0
        · simp [hp, confirmCommits]
        · rw [if_neg hp]
          cases hbuf : s.buffer with
          | nil => simp [confirmCommits]
          | cons a t =>
            cases t with
            | nil => simp [confirmCommits]
            | cons b t2 => simp [confirmCommits]
      | confirmSingle m => simp [step, confirmCommits]
      | confirmGroup t => simp [step, confirmCommits]
      | cancel => simp [step, confirmCommits]
    rw [run, ih, hstep, List.map_cons, List.flatten_cons, List.append_assoc]

/-- C2 counterexample: three timer messages arriving within the window produce
three batch confirmation prompts, not exactly one, because nothing cancels the
previously scheduled debounce callbacks. -/
theorem three_burst_messages_three_batch_prompts :
    (fireAll (run groupingInit [Event.timerMsg 30, Event.timerMsg 40, Event.timerMsg 50])).prompts
        = [Prompt.batch [30, 40, 50] 120, Prompt.batch [30, 40, 50] 120,
           Prompt.batch [30, 40, 50] 120] ∧
    (fireAll (run groupingInit [Event.timerMsg 30, Event.timerMsg 40, Event.timerMsg 50])).prompts.length
        ≠ 1 :=
  ⟨by decide, by decide⟩

/-- C2 amended: each arriving duration appends to the buffer and schedules an
additional debounce callback without cancelling the previously scheduled one;
every scheduled callback fires, so a burst of `n ≥ 2` messages inside the
window yields `n` batch prompts, each itemizing the full buffer in arrival
order with the correct summed total, rather than one. -/
theorem uncancelled_debounce_prompts_per_message :
    ∀ (ms : List Nat) (a b : Nat) (l : List Nat), ms = a :: b :: l →
      (fireAll (run groupingInit (ms.map Event.timerMsg))).prompts =
        List.replicate ms.length (Prompt.batch ms ms.sum) := by
  intro ms a b l hms
  rw [fireAll, run_timerMsgs ms groupingInit rfl]
  rw [run_fires _ _ a b l (by simp [groupingInit, hms]) (by simp [groupingInit])]
  simp [groupingInit]

/-- C2 witness: the amended debounce theorem applied to a concrete burst. -/
theorem uncancelled_debounce_prompts_per_message_witness :
    (fireAll (run groupingInit ([30, 40, 50].map Event.timerMsg))).prompts =
      List.replicate ([30, 40, 50] : List Nat).length
        (Prompt.batch [30, 40, 50] ([30, 40, 50] : List Nat).sum) :=
  uncancelled_debounce_prompts_per_message [30, 40, 50] 30 40 [50] rfl

/-- C6: after a burst of two or more timer durations, the debounce flush sends
one batch prompt itemizing the buffered durations in arrival order with the
summed total, and confirming it issues exactly one storage commit equal to
that sum. -/
theorem batch_prompt_fifo_single_commit :
    ∀ (ms : List Nat) (a b : Nat) (l : List Nat), ms = a :: b :: l →
      (step (run groupingInit (ms.map Event.timerMsg)) Event.debounceFire).prompts
          = [Prompt.batch ms ms.sum] ∧
      (step (step (run groupingInit (ms.map Event.timerMsg)) Event.debounceFire)
          (Event.confirmGroup ms.sum)).commits = [ms.sum] := by
  intro ms a b l hms
  rw [run_timerMsgs ms groupingInit rfl]
  subst hms
  constructor
  · rw [step]
    simp [groupingInit]
  · rw [step, step]
    simp [groupingInit]

/-- C6 witness: the batch confirmation theorem applied to a concrete burst
whose arrival order differs from its magnitude order. -/
theorem batch_prompt_fifo_single_commit_witness :
    (step (run groupingInit ([50, 30, 40].map Event.timerMsg)) Event.debounceFire).prompts
        = [Prompt.batch [50, 30, 40] ([50, 30, 40] : List Nat).sum] ∧
    (step (step (run groupingInit ([50, 30, 40].map Event.timerMsg)) Event.debounceFire)
        (Event.confirmGroup ([50, 30, 40] : List Nat).sum)).commits
        = [([50, 30, 40] : List Nat).sum] :=
  batch_prompt_fifo_single_commit [50, 30, 40] 50 30 [40] rfl

/-- C7 counterexample: cancelling the pending batch prompt performs no storage
call (that part of the claim holds) but does not discard the batch —
`timer_buffer` is never cleared — so the buffer survives the cancel verbatim
and the next timer message still carries the cancelled 30 and 40 minutes into
the following batch prompt. -/
theorem cancel_retains_buffer :
    (run groupingInit [Event.timerMsg 30, Event.timerMsg 40, Event.debounceFire,
        Event.cancel]).commits = [] ∧
    (run groupingInit [Event.timerMsg 30, Event.timerMsg 40, Event.debounceFire,
        Event.cancel]).buffer = [30, 40] ∧
    (run groupingInit [Event.timerMsg 30, Event.timerMsg 40, Event.debounceFire,
        Event.cancel]).buffer ≠ [] ∧
    (run groupingInit [Event.timerMsg 30, Event.timerMsg 40, Event.debounceFire,
        Event.cancel, Event.timerMsg 50, Event.debounceFire]).prompts
      = [Prompt.batch [30, 40] 70, Prompt.batch [30, 40, 50] 120] :=
  ⟨by decide, by decide, by decide, by decide⟩

/-- C7 amended: the cancel action performs zero `add_time_record` calls and
sends no prompt, and new timer messages are accepted immediately afterwards
with unchanged behaviour; but it does not discard the buffered batch or value —
the buffer is left exactly as it was. -/
theorem cancel_no_commit_new_messages_accepted :
    ∀ (s : BotState) (m : Nat),
      (step s Event.cancel).commits = s.commits ∧
      (step s Event.cancel).prompts = s.prompts ∧
      step (step s Event.cancel) (Event.timerMsg m) = step s (Event.timerMsg m) ∧
      (step s Event.cancel).buffer = s.buffer := by
  intro s m
  exact ⟨rfl, rfl, rfl, rfl⟩

/-- C9: the claim fails on the code — a debounce flush finding exactly one
buffered duration sends no confirmation prompt at all, because the prompt is
handed to the pseudo-update's stub `reply_text` and discarded while the send
branch written for the pseudo-update is unreachable, whereas the direct
single-timer path does send the one-line confirm prompt. -/
theorem single_item_flush_sends_no_prompt :
    (step (BotState.mk true [30] 1 [] []) Event.debounceFire).prompts = [] ∧
    (step (BotState.mk true [30] 1 [] []) Event.debounceFire).commits = [] ∧
    (step directInit (Event.timerMsg 30)).prompts = [Prompt.single 30] ∧
    (step (BotState.mk true [30] 1 [] []) Event.debounceFire).prompts
      ≠ (step directInit (Event.timerMsg 30)).prompts :=
  ⟨by decide, by decide, by decide, by decide⟩

/-- C10 counterexample: on the stored row (rate 1, goal 300, earned -50) the
code computes `min(100, int(earned/goal*100))` with Python `int` truncating
toward zero, giving -16, while the claimed `min(100, floor(earned/goal*100))`
equals -17. -/
theorem get_progress_truncates_toward_zero :
    (get_progress ⟨1, 300, -50⟩).percent = -16 ∧
    min 100 ⌊((-50 : ℚ) / 300) * 100⌋ = -17 ∧ ((-16 : ℤ) ≠ -17) := by
  refine ⟨?_, by norm_num, by decide⟩
  simp only [get_progress, truncInt]
  norm_num
  rw [show ⌈-((50 : ℚ) / 3)⌉ = -16 from by norm_num [Int.ceil_eq_iff]]
  decide

/-- C10 amended: `get_progress` never divides by zero (each division sits
behind its positivity guard) and its outputs are clamped — percent never
exceeds 100 and hours_left is never negative.  When `goal > 0` the percent is
`min(100, int(earned/goal*100))` with Python `int` truncating toward zero,
which equals the claimed floor form whenever `earned ≥ 0`; otherwise percent
is 0.  When `rate > 0` hours_left is `max(0, (goal - earned)/rate)`, and
otherwise 0. -/
theorem get_progress_safe :
    ∀ (d : UserData),
      (get_progress d).percent ≤ 100 ∧
      0 ≤ (get_progress d).hours_left ∧
      (0 < d.goal → 0 ≤ d.earned →
        (get_progress d).percent = min 100 ⌊d.earned / d.goal * 100⌋) ∧
      (¬ 0 < d.goal → (get_progress d).percent = 0) ∧
      (0 < d.rate → (get_progress d).hours_left = max 0 ((d.goal - d.earned) / d.rate)) ∧
      (¬ 0 < d.rate → (get_progress d).hours_left = 0) := by
  intro d
  simp only [get_progress]
  refine ⟨?_, ?_, ?_, ?_, ?_, ?_⟩
  · by_cases hg : 0 < d.goal
    · rw [if_pos hg]
      exact min_le_left _ _
    · rw [if_neg hg]
      norm_num
  · by_cases hr : 0 < d.rate
    · rw [if_pos hr]
      exact le_max_left _ _
    · rw [if_neg hr]
  · intro hg he
    rw [if_pos hg, truncInt,
      if_pos (mul_nonneg (div_nonneg he (le_of_lt hg)) (by norm_num))]
  · intro hg
    rw [if_neg hg]
  · intro hr
    rw [if_pos hr]
  · intro hr
    rw [if_neg hr]

/-- C10 witness: the safety theorem applied to a concrete stored row. -/
theorem get_progress_safe_witness :
    (get_progress ⟨100, 1000, 500⟩).percent ≤ 100 ∧
    (get_progress ⟨100, 1000, 500⟩).percent = min 100 ⌊(500 : ℚ) / 1000 * 100⌋ :=
  ⟨(get_progress_safe ⟨100, 1000, 500⟩).1,
   (get_progress_safe ⟨100, 1000, 500⟩).2.2.1
     (by norm_num : (0 : ℚ) < 1000) (by norm_num : (0 : ℚ) ≤ 500)⟩

end TimeTracker
